import Mathlib

/-!
Shallow embedding of the character-search widget: a `Character` record type,
the query fetcher (`fetchDataHelper` / `fetchCharacters`), and the selection
state machine of the `CharacterSearch` component (query text, fetched
candidate list, highlight cursor, provisional selected list, committed added
list, loading flag and error message), together with the event handlers
(`handleInputChange`, the fetch effect, `handleSelectCharacter`,
`handleRemoveCharacter`, `handleRemoveCharacterList`, `handleAddCharacters`,
`handleKeyDown`) translated from the source.  JavaScript numbers that can
become `NaN` (the highlight index under `%` by zero) are embedded as `JSNum`.
-/

/-- A character record as fetched from the directory API. -/
structure Character where
  id : Int
  name : String
  image : String
  episode : List String
deriving DecidableEq, Repr

/-- A JavaScript number as used for the highlight index: either a genuine
integer or `NaN` (the result of `%` by zero, which then propagates). -/
inductive JSNum where
  | nan : JSNum
  | int : Int → JSNum
deriving DecidableEq, Repr

/-- JavaScript `+` on numbers: `NaN` propagates. -/
def jsAdd : JSNum → JSNum → JSNum
  | JSNum.int a, JSNum.int b => JSNum.int (a + b)
  | _, _ => JSNum.nan

/-- JavaScript `-` on numbers: `NaN` propagates. -/
def jsSub : JSNum → JSNum → JSNum
  | JSNum.int a, JSNum.int b => JSNum.int (a - b)
  | _, _ => JSNum.nan

/-- JavaScript `%` on numbers: remainder truncated toward zero (sign of the
dividend), `NaN` when the divisor is `0`, and `NaN` propagates. -/
def jsMod : JSNum → JSNum → JSNum
  | JSNum.int a, JSNum.int b => if b = 0 then JSNum.nan else JSNum.int (Int.tmod a b)
  | _, _ => JSNum.nan

/-- A toast notification as raised by the handlers. -/
inductive Notice where
  | success : String → Notice
  | failure : String → Notice
deriving DecidableEq, Repr

/-- The keyboard keys the `handleKeyDown` handler distinguishes. -/
inductive Key where
  | arrowDown
  | arrowUp
  | enter
  | other
deriving DecidableEq, Repr

/-- The outcome of the network request plus JSON parse, as seen by the
fetch helper: either the request or the parse failed (`failure e`, the
thrown error), or a JSON body was parsed whose `results` field is either
absent (`body none`) or a list of characters (`body (some rs)`). -/
inductive FetchResponse where
  | failure : String → FetchResponse
  | body : Option (List Character) → FetchResponse
deriving DecidableEq, Repr

/-- `fetchDataHelper` from `src/helpers/fetchDataHepler.ts`: awaits the
response for the query, parses the JSON body and returns `data.results || []`;
on a network or parse failure it logs and rethrows the error. -/
def fetchDataHelper (query : String) (response : FetchResponse) :
    Except String (List Character) :=
  match response with
  | FetchResponse.failure e => Except.error e
  | FetchResponse.body none => Except.ok []
  | FetchResponse.body (some results) => Except.ok results

/-- `fetchCharacters` from the `CharacterSearch` component: identical to
`fetchDataHelper`. -/
def fetchCharacters (query : String) (response : FetchResponse) :
    Except String (List Character) :=
  fetchDataHelper query response

/-- The reactive state of the `CharacterSearch` component: the seven
`useState` variables. -/
structure SearchState where
  query : String
  characters : List Character
  loading : Bool
  highlightedIndex : JSNum
  selectedCharacters : List Character
  addedCharacters : List Character
  error : Option String
deriving DecidableEq, Repr

/-- The initial state: the `useState` defaults. -/
def initialState : SearchState :=
  { query := ""
    characters := []
    loading := false
    highlightedIndex := JSNum.int 0
    selectedCharacters := []
    addedCharacters := []
    error := none }

/-- `handleInputChange`: store the new input value as the query. -/
def handleInputChange (s : SearchState) (value : String) : SearchState :=
  { s with query := value }

/-- The synchronous part of the fetch effect for a non-empty query:
`setLoading(true); setError(null)` before the fetch is issued. -/
def effectFetchStart (s : SearchState) : SearchState :=
  { s with loading := true, error := none }

/-- The fetch effect's success continuation: the returned data filtered
against the currently selected characters (only) is stored as the candidate
list, and loading ends.  The highlight index is not touched. -/
def fetchSuccess (s : SearchState) (data : List Character) : SearchState :=
  { s with
    characters :=
      data.filter (fun character =>
        ! s.selectedCharacters.any (fun c => c.id == character.id))
    loading := false }

/-- The fetch effect's catch branch: loading ends and the error message is
stored.  The candidate list is not touched. -/
def fetchFailure (s : SearchState) : SearchState :=
  { s with loading := false, error := some "Error fetching characters" }

/-- `handleSelectCharacter`: append the character to the selected list
unless one with the same id is already there, then clear the query and the
candidate list. -/
def handleSelectCharacter (s : SearchState) (character : Character) : SearchState :=
  { s with
    selectedCharacters :=
      if s.selectedCharacters.any (fun c => c.id == character.id) then
        s.selectedCharacters
      else
        s.selectedCharacters ++ [character]
    query := ""
    characters := [] }

/-- `handleRemoveCharacter`: drop the entry with the given id from the
selected list. -/
def handleRemoveCharacter (s : SearchState) (id : Int) : SearchState :=
  { s with selectedCharacters := s.selectedCharacters.filter (fun c => c.id != id) }

/-- `handleRemoveCharacterList`: drop the entry with the given id from the
added list and raise a success toast. -/
def handleRemoveCharacterList (s : SearchState) (id : Int) : SearchState × Notice :=
  ({ s with addedCharacters := s.addedCharacters.filter (fun c => c.id != id) },
   Notice.success "Başarıyla kaldırıldı")

/-- The `uniqueCharacters` intermediate of `handleAddCharacters`: the
selected characters whose id is not yet among the added characters. -/
def uniqueCharacters (s : SearchState) : List Character :=
  s.selectedCharacters.filter (fun character =>
    ! s.addedCharacters.any (fun added => added.id == character.id))

/-- `handleAddCharacters`: when some selected character is not yet added,
append those to the added list, clear the selected list and raise a success
toast; otherwise raise an error toast and change nothing. -/
def handleAddCharacters (s : SearchState) : SearchState × Notice :=
  if (uniqueCharacters s).length > 0 then
    ({ s with
        addedCharacters := s.addedCharacters ++ uniqueCharacters s
        selectedCharacters := [] },
     Notice.success "Başarıyla eklendi")
  else
    (s, Notice.failure "Lütfen tekrar deneyiniz.")

/-- JavaScript array indexing `l[i]`: the element for an in-range integer
index, `undefined` (here `none`) for `NaN`, negative or out-of-range
indices. -/
def jsIndex (l : List Character) : JSNum → Option Character
  | JSNum.int i =>
      if h : 0 ≤ i ∧ i.toNat < l.length then some (l.get ⟨i.toNat, h.2⟩) else none
  | JSNum.nan => none

/-- `handleKeyDown`: ArrowDown sets the highlight to `(prev + 1) % length`
(JavaScript `%`, so `NaN` on an empty list); ArrowUp sets it to `length - 1`
when it was `0` and to `prev - 1` otherwise; Enter, when the candidate list
is non-empty, selects `characters[highlightedIndex]` — `none` models the
`undefined` element access when the highlight is out of range, on which the
handler cannot run to completion. -/
def handleKeyDown (s : SearchState) (key : Key) : Option SearchState :=
  match key with
  | Key.arrowDown =>
      some { s with
        highlightedIndex :=
          jsMod (jsAdd s.highlightedIndex (JSNum.int 1))
            (JSNum.int (s.characters.length : Int)) }
  | Key.arrowUp =>
      some { s with
        highlightedIndex :=
          if s.highlightedIndex = JSNum.int 0 then
            JSNum.int ((s.characters.length : Int) - 1)
          else
            jsSub s.highlightedIndex (JSNum.int 1) }
  | Key.enter =>
      if s.characters.length > 0 then
        match jsIndex s.characters s.highlightedIndex with
        | some character => some (handleSelectCharacter s character)
        | none => none
      else
        some s
  | Key.other => some s

/-- The results list as rendered: the candidate list is shown only when not
loading and no error is held. -/
def renderedResults (s : SearchState) : List Character :=
  if s.loading = false ∧ s.error = none then s.characters else []

/-- One event of the event-driven UI: typing (which re-runs the fetch
effect), arrival of a fetch response (success or failure, possible whenever
the query is non-empty), a key press that the handler completes, a mouse
click or hover on a rendered candidate, the Add button, and the two remove
buttons. -/
inductive Step : SearchState → SearchState → Prop where
  | typing (s : SearchState) (value : String) (hv : value ≠ "") :
      Step s (effectFetchStart (handleInputChange s value))
  | typingEmpty (s : SearchState) :
      Step s { handleInputChange s "" with characters := [] }
  | fetchOk (s : SearchState) (data : List Character) (hq : s.query ≠ "") :
      Step s (fetchSuccess s data)
  | fetchErr (s : SearchState) (hq : s.query ≠ "") :
      Step s (fetchFailure s)
  | keydown (s s' : SearchState) (key : Key) (h : handleKeyDown s key = some s') :
      Step s s'
  | click (s : SearchState) (i : Nat) (h : i < s.characters.length) :
      Step s (handleSelectCharacter s (s.characters.get ⟨i, h⟩))
  | hover (s : SearchState) (i : Nat) (h : i < s.characters.length) :
      Step s { s with highlightedIndex := JSNum.int (i : Int) }
  | addAction (s : SearchState) :
      Step s (handleAddCharacters s).1
  | removeSelected (s : SearchState) (id : Int) :
      Step s (handleRemoveCharacter s id)
  | removeAdded (s : SearchState) (id : Int) :
      Step s (handleRemoveCharacterList s id).1

/-- The states reachable from the initial state by UI events. -/
inductive Reachable : SearchState → Prop where
  | init : Reachable initialState
  | step {s s' : SearchState} : Reachable s → Step s s' → Reachable s'

/-- A sample character. -/
def rick : Character :=
  { id := 1, name := "Rick Sanchez", image := "rick.png", episode := ["S01E01"] }

/-- A second sample character. -/
def morty : Character :=
  { id := 2, name := "Morty Smith", image := "morty.png", episode := ["S01E01"] }

/-- Trace: the user has typed "rick" from the initial state. -/
def t1 : SearchState := effectFetchStart (handleInputChange initialState "rick")

/-- Trace: the fetch for "rick" returned `[rick]`. -/
def t2 : SearchState := fetchSuccess t1 [rick]

/-- Trace: the user clicked the first candidate. -/
def t3 : SearchState := handleSelectCharacter t2 (t2.characters.get ⟨0, by decide⟩)

/-- Trace: the user pressed the Add button. -/
def t4 : SearchState := (handleAddCharacters t3).1

/-- Trace: the user typed "rick" again. -/
def t5 : SearchState := effectFetchStart (handleInputChange t4 "rick")

/-- Trace: the second fetch for "rick" returned `[rick]` again. -/
def t6 : SearchState := fetchSuccess t5 [rick]

/-- Trace: the user clicked the first candidate again. -/
def t7 : SearchState := handleSelectCharacter t6 (t6.characters.get ⟨0, by decide⟩)

lemma reach_t2 : Reachable t2 :=
  Reachable.step
    (Reachable.step Reachable.init (Step.typing initialState "rick" (by decide)))
    (Step.fetchOk t1 [rick] (by decide))

lemma reach_t6 : Reachable t6 :=
  Reachable.step
    (Reachable.step
      (Reachable.step
        (Reachable.step reach_t2 (Step.click t2 0 (by decide)))
        (Step.addAction t3))
      (Step.typing t4 "rick" (by decide)))
    (Step.fetchOk t5 [rick] (by decide))

lemma reach_t7 : Reachable t7 :=
  Reachable.step reach_t6 (Step.click t6 0 (by decide))

/-- Membership in `uniqueCharacters`: selected and with an id not among the
added characters. -/
lemma mem_uniqueCharacters {s : SearchState} {c : Character} :
    c ∈ uniqueCharacters s ↔
      c ∈ s.selectedCharacters ∧ ∀ a ∈ s.addedCharacters, a.id ≠ c.id := by
  simp [uniqueCharacters, List.mem_filter]

/-- Membership in the candidate list after a successful fetch: returned by
the fetch and with an id not among the selected characters. -/
lemma mem_fetchSuccess_characters {s : SearchState} {data : List Character}
    {c : Character} :
    c ∈ (fetchSuccess s data).characters ↔
      c ∈ data ∧ ∀ x ∈ s.selectedCharacters, x.id ≠ c.id := by
  simp [fetchSuccess, List.mem_filter]

/-- The state invariant preserved by every UI event: the selected and the
added lists each hold pairwise-distinct ids, and no fetched candidate shares
an id with a selected character. -/
def StateInv (s : SearchState) : Prop :=
  (s.selectedCharacters.map Character.id).Nodup ∧
  (s.addedCharacters.map Character.id).Nodup ∧
  ∀ c ∈ s.characters, ∀ x ∈ s.selectedCharacters, x.id ≠ c.id

lemma inv_handleSelectCharacter {s : SearchState} (c : Character) (h : StateInv s) :
    StateInv (handleSelectCharacter s c) := by
  obtain ⟨h1, h2, _⟩ := h
  refine ⟨?_, h2, by simp [handleSelectCharacter]⟩
  simp only [handleSelectCharacter]
  by_cases hc : s.selectedCharacters.any (fun x => x.id == c.id) = true
  · simpa [hc] using h1
  · have hc' : ∀ x ∈ s.selectedCharacters, x.id ≠ c.id := by
      simpa [List.any_eq_true] using hc
    have hnot : c.id ∉ s.selectedCharacters.map Character.id := by
      simp only [List.mem_map, not_exists]
      rintro x ⟨hx1, hx2⟩
      exact hc' x hx1 hx2
    rw [if_neg hc, List.map_append, List.nodup_append]
    refine ⟨h1, by simp, ?_⟩
    intro a ha hb
    simp only [List.map_cons, List.map_nil, List.mem_singleton] at hb
    exact hnot (hb ▸ ha)

lemma inv_handleAddCharacters {s : SearchState} (h : StateInv s) :
    StateInv (handleAddCharacters s).1 := by
  obtain ⟨h1, h2, h3⟩ := h
  unfold handleAddCharacters
  split
  · refine ⟨by simp, ?_, by simp⟩
    simp only [List.map_append, List.nodup_append]
    refine ⟨h2, ?_, ?_⟩
    · exact h1.sublist ((List.filter_sublist _).map _)
    · intro a ha hb
      simp only [List.mem_map] at ha hb
      obtain ⟨x, hx1, hx2⟩ := ha
      obtain ⟨y, hy1, hy2⟩ := hb
      have := (mem_uniqueCharacters.mp hy1).2 x hx1
      exact this (hx2.trans hy2.symm)
  · exact ⟨h1, h2, h3⟩

lemma inv_handleKeyDown {s s' : SearchState} (key : Key)
    (h : handleKeyDown s key = some s') (hs : StateInv s) : StateInv s' := by
  cases key with
  | arrowDown =>
      simp only [handleKeyDown, Option.some.injEq] at h
      exact h ▸ hs
  | arrowUp =>
      simp only [handleKeyDown, Option.some.injEq] at h
      exact h ▸ hs
  | enter =>
      simp only [handleKeyDown] at h
      split at h
      · cases hj : jsIndex s.characters s.highlightedIndex with
        | none => rw [hj] at h; cases h
        | some c =>
            rw [hj] at h
            simp only [Option.some.injEq] at h
            exact h ▸ inv_handleSelectCharacter c hs
      · simp only [Option.some.injEq] at h
        exact h ▸ hs
  | other =>
      simp only [handleKeyDown, Option.some.injEq] at h
      exact h ▸ hs

lemma inv_step {s s' : SearchState} (h : StateInv s) (hs : Step s s') :
    StateInv s' := by
  obtain ⟨h1, h2, h3⟩ := h
  cases hs with
  | typing v hv => exact ⟨h1, h2, h3⟩
  | typingEmpty => exact ⟨h1, h2, by simp [handleInputChange]⟩
  | fetchOk data hq =>
      refine ⟨h1, h2, ?_⟩
      intro c hc x hx
      exact (mem_fetchSuccess_characters.mp hc).2 x hx
  | fetchErr hq => exact ⟨h1, h2, h3⟩
  | keydown s' key hk => exact inv_handleKeyDown key hk ⟨h1, h2, h3⟩
  | click i hi => exact inv_handleSelectCharacter _ ⟨h1, h2, h3⟩
  | hover i hi => exact ⟨h1, h2, h3⟩
  | addAction => exact inv_handleAddCharacters ⟨h1, h2, h3⟩
  | removeSelected id =>
      refine ⟨?_, h2, ?_⟩
      · exact h1.sublist ((List.filter_sublist _).map _)
      · intro c hc x hx
        exact h3 c hc x (List.mem_of_mem_filter hx)
  | removeAdded id =>
      exact ⟨h1, h2.sublist ((List.filter_sublist _).map _), h3⟩

/-- JavaScript `(i + 1) % len` for an in-range cursor `i < len`: advance by
one, wrapping to `0` from the last index. -/
lemma jsMod_step (i len : Nat) (h : i < len) :
    jsMod (jsAdd (JSNum.int (i : Int)) (JSNum.int 1)) (JSNum.int (len : Int)) =
      JSNum.int (if i = len - 1 then 0 else (i : Int) + 1) := by
  have hpos : 0 < len := Nat.lt_of_le_of_lt (Nat.zero_le i) h
  have hlen : ((len : Int)) ≠ 0 := Int.natCast_ne_zero.mpr hpos.ne'
  simp only [jsAdd, jsMod, if_neg hlen]
  congr 1
  have hcast : ((i : Int) + 1) = ((i + 1 : Nat) : Int) := by push_cast; ring
  rw [hcast, ← Int.ofNat_tmod]
  by_cases hi : i = len - 1
  · subst hi
    have hlen1 : len - 1 + 1 = len := Nat.succ_pred_eq_of_pos hpos
    rw [hlen1, Nat.mod_self, if_pos rfl]
    exact Nat.cast_zero
  · rw [Nat.mod_eq_of_lt (by omega), if_neg hi]

/-- Indexing by a natural-number cursor that is in range yields the element. -/
lemma jsIndex_natCast {l : List Character} {i : Nat} (h : i < l.length) :
    jsIndex l (JSNum.int (i : Int)) = some (l.get ⟨i, h⟩) := by
  have hc : 0 ≤ (i : Int) ∧ ((i : Int)).toNat < l.length :=
    ⟨Int.natCast_nonneg i, by simpa using h⟩
  simp only [jsIndex, dif_pos hc]
  exact congrArg some (congrArg l.get (Fin.ext (by simp)))

/-- The `.some`-by-id check of the handlers, as membership of the id in the
mapped id list. -/
lemma any_id_eq_mem_map (l : List Character) (c : Character) :
    l.any (fun x => x.id == c.id) = true ↔ c.id ∈ l.map Character.id := by
  simp only [List.any_eq_true, beq_iff_eq, List.mem_map]

/-- Trace: the user has typed "mo" from the initial state. -/
def u1 : SearchState := effectFetchStart (handleInputChange initialState "mo")

/-- Trace: the fetch for "mo" returned `[rick, morty]`. -/
def u2 : SearchState := fetchSuccess u1 [rick, morty]

/-- Trace: the user pressed ArrowDown, the highlight is `1`. -/
def u3 : SearchState := { u2 with highlightedIndex := JSNum.int 1 }

/-- Trace: a later fetch response `[rick]` replaced the candidate list
while the highlight stayed `1`. -/
def u4 : SearchState := fetchSuccess u3 [rick]

lemma reach_u4 : Reachable u4 :=
  Reachable.step
    (Reachable.step
      (Reachable.step
        (Reachable.step Reachable.init (Step.typing initialState "mo" (by decide)))
        (Step.fetchOk u1 [rick, morty] (by decide)))
      (Step.keydown u2 u3 Key.arrowDown (by decide)))
    (Step.fetchOk u3 [rick] (by decide))

/-- C9: for every non-empty query string, the fetch helper returns the
parsed body's `results` array, the empty list when the `results` field is
absent, and propagates the thrown error on a network or parse failure; it
returns normally if and only if the request and parse succeeded (the
component's `fetchCharacters` behaves identically). -/
theorem fetchDataHelper_contract (q : String) (hq : q ≠ "") (r : FetchResponse) :
    ((∃ v, fetchDataHelper q r = Except.ok v) ↔ ∃ res, r = FetchResponse.body res) ∧
    (∀ rs, fetchDataHelper q (FetchResponse.body (some rs)) = Except.ok rs) ∧
    fetchDataHelper q (FetchResponse.body none) = Except.ok [] ∧
    (∀ e, fetchDataHelper q (FetchResponse.failure e) = Except.error e) ∧
    fetchCharacters q r = fetchDataHelper q r := by
  refine ⟨?_, fun rs => rfl, rfl, fun e => rfl, rfl⟩
  cases r with
  | failure e => simp [fetchDataHelper]
  | body o => cases o <;> simp [fetchDataHelper]

/-- C9 witness: at the query "rick" with a parsed body carrying a results
array, the helper returns exactly that array. -/
theorem fetchDataHelper_contract_witness :
    fetchDataHelper "rick" (FetchResponse.body (some [rick])) = Except.ok [rick] :=
  (fetchDataHelper_contract "rick" (by decide) (FetchResponse.body (some [rick]))).2.1 [rick]

/-- C1 (amended): the candidate list stored on a fetch success is the
returned data minus exactly the candidates whose id is in the selected set;
ids in the added set are not filtered out. -/
theorem fetchSuccess_filters_only_selected (s : SearchState) (data : List Character)
    (c : Character) :
    c ∈ (fetchSuccess s data).characters ↔
      c ∈ data ∧ c.id ∉ s.selectedCharacters.map Character.id := by
  rw [mem_fetchSuccess_characters]
  simp only [List.mem_map, not_exists]
  constructor
  · rintro ⟨hd, hall⟩
    exact ⟨hd, fun x hx => hall x hx.1 hx.2⟩
  · rintro ⟨hd, hall⟩
    exact ⟨hd, fun x hx he => hall x ⟨hx, he⟩⟩

/-- C1 fails as stated: in the reachable state `t5` the added set holds
`rick`, yet the fetch success returning `[rick]` stores a candidate list
that contains `rick` — a candidate whose id is in the added set appears in
a freshly fetched list. -/
theorem fetched_list_contains_added_id :
    Reachable t6 ∧ t6 = fetchSuccess t5 [rick] ∧
    rick ∈ t6.characters ∧ rick.id ∈ t6.addedCharacters.map Character.id :=
  ⟨reach_t6, rfl, by decide, by decide⟩

/-- C5 (amended): a fetch failure stores the error message and ends
loading; the stored candidate list, the selected set and the added set are
left unchanged, while the rendered results list is empty as long as the
error is held. -/
theorem fetchFailure_spec (s : SearchState) :
    (fetchFailure s).error = some "Error fetching characters" ∧
    (fetchFailure s).loading = false ∧
    (fetchFailure s).characters = s.characters ∧
    (fetchFailure s).selectedCharacters = s.selectedCharacters ∧
    (fetchFailure s).addedCharacters = s.addedCharacters ∧
    renderedResults (fetchFailure s) = [] :=
  ⟨rfl, rfl, rfl, rfl, rfl, by simp [renderedResults, fetchFailure]⟩

/-- C5 fails as stated: from the reachable state `t2` (candidate list
`[rick]`, query "rick"), a fetch failure stores the error message but the
candidate list in the state is `[rick]`, not cleared. -/
theorem fetch_failure_keeps_characters :
    Reachable (fetchFailure t2) ∧
    (fetchFailure t2).error = some "Error fetching characters" ∧
    (fetchFailure t2).characters = [rick] ∧
    (fetchFailure t2).characters ≠ [] :=
  ⟨Reachable.step reach_t2 (Step.fetchErr t2 (by decide)), rfl, by decide, by decide⟩

/-- C2 (amended): the Add action appends `uniqueCharacters` — the selected
candidates whose id is not yet in the added set — to the added set and
clears the selected set when at least one such candidate exists; when every
selected candidate is already added (in particular when the selected set is
empty) it raises the failure notice and leaves the state unchanged. -/
theorem handleAddCharacters_spec (s : SearchState) :
    (∀ c, c ∈ uniqueCharacters s ↔
        c ∈ s.selectedCharacters ∧ c.id ∉ s.addedCharacters.map Character.id) ∧
    (if uniqueCharacters s = [] then
        handleAddCharacters s = (s, Notice.failure "Lütfen tekrar deneyiniz.")
      else
        (handleAddCharacters s).1.addedCharacters
            = s.addedCharacters ++ uniqueCharacters s ∧
        (handleAddCharacters s).1.selectedCharacters = [] ∧
        (handleAddCharacters s).2 = Notice.success "Başarıyla eklendi") := by
  constructor
  · intro c
    rw [mem_uniqueCharacters]
    simp only [List.mem_map, not_exists]
    constructor
    · rintro ⟨hm, hall⟩
      exact ⟨hm, fun a ha => hall a ha.1 ha.2⟩
    · rintro ⟨hm, hall⟩
      exact ⟨hm, fun a ha he => hall a ⟨ha, he⟩⟩
  · split
    case isTrue hempty =>
      have : ¬ (uniqueCharacters s).length > 0 := by simp [hempty]
      unfold handleAddCharacters
      rw [if_neg this]
    case isFalse hne =>
      have : (uniqueCharacters s).length > 0 := List.length_pos.mpr hne
      unfold handleAddCharacters
      rw [if_pos this]
      exact ⟨rfl, rfl, rfl⟩

/-- C2 fails as stated: in the reachable state `t7` the selected set is the
non-empty `[rick]` (with `rick` already added), yet Add raises the failure
notice and clears nothing. -/
theorem add_with_nonempty_selected_fails :
    Reachable t7 ∧ t7.selectedCharacters = [rick] ∧
    (handleAddCharacters t7).2 = Notice.failure "Lütfen tekrar deneyiniz." ∧
    (handleAddCharacters t7).1 = t7 :=
  ⟨reach_t7, by decide, by decide, by decide⟩

/-- C3 fails on the code (the spec's reset is the intent): in the reachable
state `u4`, produced by a fetch success that replaced a two-element
candidate list (highlight `1` after ArrowDown) by a one-element list, the
highlight index is not reset — the fetch success leaves it untouched — and
equals the list length, outside `[0, 1)`. -/
theorem highlight_not_reset_on_fetch :
    Reachable u4 ∧ u4 = fetchSuccess u3 [rick] ∧
    u4.characters.length = 1 ∧
    u4.highlightedIndex = JSNum.int 1 ∧
    (fetchSuccess u3 [rick]).highlightedIndex = u3.highlightedIndex :=
  ⟨reach_u4, rfl, by decide, by decide, rfl⟩

/-- C4 fails on the code (the spec's guard is the intent): on the empty
candidate list of the initial state, ArrowDown sets the highlight to
`(0 + 1) % 0 = NaN` and ArrowUp sets it to `0 - 1 = -1`; neither transition
leaves the state unchanged, so the `%` by the list length is not guarded. -/
theorem arrow_keys_unguarded_on_empty_list :
    initialState.characters = [] ∧
    handleKeyDown initialState Key.arrowDown
      = some { initialState with highlightedIndex := JSNum.nan } ∧
    handleKeyDown initialState Key.arrowUp
      = some { initialState with highlightedIndex := JSNum.int (-1) } ∧
    JSNum.nan ≠ initialState.highlightedIndex ∧
    JSNum.int (-1) ≠ initialState.highlightedIndex :=
  ⟨rfl, by decide, by decide, by decide, by decide⟩

/-- C8: on a candidate list of length `len` with the highlight at an
in-range index `i`, ArrowDown advances the highlight by one and wraps from
`len - 1` to `0`, and ArrowUp retreats by one and wraps from `0` to
`len - 1`. -/
theorem arrow_navigation_wraps (s : SearchState) (i : Nat)
    (hhi : s.highlightedIndex = JSNum.int (i : Int))
    (hlt : i < s.characters.length) :
    handleKeyDown s Key.arrowDown
      = some { s with
          highlightedIndex :=
            JSNum.int (if i = s.characters.length - 1 then 0 else (i : Int) + 1) } ∧
    handleKeyDown s Key.arrowUp
      = some { s with
          highlightedIndex :=
            JSNum.int (if i = 0 then (s.characters.length : Int) - 1 else (i : Int) - 1) } := by
  constructor
  · simp only [handleKeyDown, hhi, jsMod_step i s.characters.length hlt]
  · simp only [handleKeyDown, hhi]
    by_cases h0 : i = 0
    · subst h0
      simp
    · have hne : JSNum.int (i : Int) ≠ JSNum.int 0 := by
        simp only [ne_eq, JSNum.int.injEq]
        exact_mod_cast h0
      rw [if_neg hne, if_neg h0]
      simp [jsSub]

/-- A state with two candidates and the highlight on the last index. -/
def sW8 : SearchState :=
  { initialState with characters := [rick, morty], highlightedIndex := JSNum.int 1 }

/-- C8 witness: at the two-element list with highlight `1`, ArrowDown wraps
to `0` and ArrowUp moves to `0`. -/
theorem arrow_navigation_wraps_witness :
    handleKeyDown sW8 Key.arrowDown = some { sW8 with highlightedIndex := JSNum.int 0 } ∧
    handleKeyDown sW8 Key.arrowUp = some { sW8 with highlightedIndex := JSNum.int 0 } := by
  have h := arrow_navigation_wraps sW8 1 (by decide) (by decide)
  simpa using h

/-- C6: committing a candidate — via Enter on the in-range highlighted
index `i`, or via click on index `i` — clears the query and the candidate
list, leaves the added set alone, and appends exactly that candidate to the
selected set unless its id is already present, in which case the selected
set is unchanged. -/
theorem commit_resets_query_and_adds_unique (s : SearchState) (i : Nat)
    (h : i < s.characters.length) :
    (s.highlightedIndex = JSNum.int (i : Int) →
      handleKeyDown s Key.enter
        = some (handleSelectCharacter s (s.characters.get ⟨i, h⟩))) ∧
    (handleSelectCharacter s (s.characters.get ⟨i, h⟩)).query = "" ∧
    (handleSelectCharacter s (s.characters.get ⟨i, h⟩)).characters = [] ∧
    (handleSelectCharacter s (s.characters.get ⟨i, h⟩)).addedCharacters
        = s.addedCharacters ∧
    (handleSelectCharacter s (s.characters.get ⟨i, h⟩)).selectedCharacters =
      (if (s.characters.get ⟨i, h⟩).id ∈ s.selectedCharacters.map Character.id then
        s.selectedCharacters
      else
        s.selectedCharacters ++ [s.characters.get ⟨i, h⟩]) := by
  refine ⟨?_, rfl, rfl, rfl, ?_⟩
  · intro hhi
    have hpos : s.characters.length > 0 := Nat.lt_of_le_of_lt (Nat.zero_le i) h
    rw [handleKeyDown, if_pos hpos, hhi, jsIndex_natCast h]
  · simp only [handleSelectCharacter]
    by_cases hc :
        s.selectedCharacters.any (fun x => x.id == (s.characters.get ⟨i, h⟩).id) = true
    · rw [if_pos hc, if_pos ((any_id_eq_mem_map _ _).mp hc)]
    · rw [if_neg hc, if_neg (fun hm => hc ((any_id_eq_mem_map _ _).mpr hm))]

/-- A state with one candidate `morty`, highlight `0` and `rick` selected. -/
def sW6 : SearchState :=
  { initialState with
      characters := [morty], highlightedIndex := JSNum.int 0,
      selectedCharacters := [rick] }

/-- C6 witness: Enter at highlight `0` on `[morty]` with `[rick]` selected
commits `morty`: the query and candidate list are cleared and the selected
set becomes `[rick, morty]`. -/
theorem commit_resets_query_and_adds_unique_witness :
    handleKeyDown sW6 Key.enter = some (handleSelectCharacter sW6 morty) ∧
    (handleSelectCharacter sW6 morty).query = "" ∧
    (handleSelectCharacter sW6 morty).characters = [] ∧
    (handleSelectCharacter sW6 morty).selectedCharacters = [rick, morty] := by
  have h := commit_resets_query_and_adds_unique sW6 0 (by decide)
  refine ⟨h.1 (by decide), h.2.1, h.2.2.1, ?_⟩
  show (handleSelectCharacter sW6 (sW6.characters.get ⟨0, by decide⟩)).selectedCharacters
      = [rick, morty]
  rw [h.2.2.2.2]
  decide

/-- C7 (amended): every reachable state satisfies the invariant that the
selected set and the added set each hold pairwise-distinct ids and that the
fetched candidate list is disjoint by id from the selected set; the
selected and added sets themselves need not be disjoint. -/
theorem reachable_state_invariant (s : SearchState) (h : Reachable s) : StateInv s := by
  induction h with
  | init =>
      exact ⟨by simp [initialState], by simp [initialState], by simp [initialState]⟩
  | step hr hst ih => exact inv_step ih hst

/-- C7 witness: the initial state satisfies the invariant. -/
theorem reachable_state_invariant_witness : StateInv initialState :=
  reachable_state_invariant initialState Reachable.init

/-- C7 fails as stated: in the reachable state `t7` the id of `rick` is in
the selected set and in the added set at the same time. -/
theorem selected_added_not_disjoint :
    Reachable t7 ∧ rick.id ∈ t7.selectedCharacters.map Character.id ∧
    rick.id ∈ t7.addedCharacters.map Character.id :=
  ⟨reach_t7, by decide, by decide⟩

/-- C10: a successful Add yields the old added set with the moved
candidates appended at the end in their selected-set order
(`uniqueCharacters` is a sublist of the selected set), and removing an id
from the added set yields a sublist of it, preserving the relative order of
the remaining entries. -/
theorem addedSet_insertion_order (s : SearchState) (h : uniqueCharacters s ≠ []) :
    (handleAddCharacters s).1.addedCharacters
        = s.addedCharacters ++ uniqueCharacters s ∧
    (uniqueCharacters s).Sublist s.selectedCharacters ∧
    ∀ id, ((handleRemoveCharacterList s id).1.addedCharacters).Sublist
      s.addedCharacters := by
  refine ⟨?_, List.filter_sublist _, fun id => List.filter_sublist _⟩
  have hpos : (uniqueCharacters s).length > 0 := List.length_pos.mpr h
  unfold handleAddCharacters
  rw [if_pos hpos]

/-- A state with `rick` selected and `morty` already added. -/
def sW10 : SearchState :=
  { initialState with selectedCharacters := [rick], addedCharacters := [morty] }

/-- C10 witness: with `[rick]` selected and `[morty]` added, Add appends
`rick` behind `morty`, and removing id `2` keeps the remaining added
entries in order. -/
theorem addedSet_insertion_order_witness :
    (handleAddCharacters sW10).1.addedCharacters
        = sW10.addedCharacters ++ uniqueCharacters sW10 ∧
    (uniqueCharacters sW10).Sublist sW10.selectedCharacters ∧
    ((handleRemoveCharacterList sW10 2).1.addedCharacters).Sublist
      sW10.addedCharacters := by
  have h := addedSet_insertion_order sW10 (by decide)
  exact ⟨h.1, h.2.1, h.2.2 2⟩
